import Mathlib

/-!
Verification development for the handlebars-rust templating engine
(compiler + renderer pipeline).

The repository's `src/lib.rs` holds the crate documentation and the module
declarations (`template`, `registry`, `render`, `helpers`, `context`); the
module implementation files are not part of the staged sources.  The data
model and the operations below are therefore modelled from the
specification (spec.md sections 3, 4 and 7), keeping the names exported by
`lib.rs` (`Template`, `Registry`, `Context`, `RenderContext`, `Helper`,
`HelperDef`, `JsonRender`, `JsonTruthy`, `RenderError`) where Lean allows.
Every definition is executable; machine strings are Lean `String`s and the
external tagged value model is the inductive `Json` below.
-/

/-- Modelled from the spec: the external Value model (spec.md section 2/3),
a tagged tree of Null/Bool/Number/String/Array/Object.  Numbers are
modelled as integers; the claims under verification only exercise integral
numbers (for example `Number(0)` falsiness). -/
inductive Json where
  | null
  | bool (b : Bool)
  | num (n : Int)
  | str (s : String)
  | arr (xs : List Json)
  | obj (fields : List (String × Json))

/-- First-match lookup in an association list keyed by strings.  Both the
Registry mappings and Object field access use it; re-registration pushes a
new pair at the front, so the first match is the most recent entry. -/
def lookupF {α : Type} : List (String × α) → String → Option α
  | [], _ => none
  | (k0, v) :: rest, k => if k0 = k then some v else lookupF rest k

/-- Modelled from the spec: the truthy predicate of `JsonTruthy`
(spec.md section 4.2): false for Null, Bool(false), Number(0), empty
String, empty Array and empty Object; true otherwise.  The empty-Object
case follows the open design choice flagged in section 9 (empty Object is
treated as falsy). -/
def Json.is_truthy : Json → Bool
  | Json.null => false
  | Json.bool b => b
  | Json.num n => if n = 0 then false else true
  | Json.str s => if s = "" then false else true
  | Json.arr xs => if xs.isEmpty then false else true
  | Json.obj fs => if fs.isEmpty then false else true

/-- Digits of a natural number, most significant first (fuelled by the
number itself so the definition is structural and kernel-reducible). -/
def natDigs : Nat → Nat → List Char
  | 0, _ => []
  | Nat.succ f, n =>
      if n < 10 then [Char.ofNat (48 + n)]
      else natDigs f (n / 10) ++ [Char.ofNat (48 + n % 10)]

def natToStr (n : Nat) : String := String.mk (natDigs (n + 1) n)

def intToStr : Int → String
  | Int.ofNat n => natToStr n
  | Int.negSucc n => "-" ++ natToStr (n + 1)

/-- Concatenation of a list of strings (the renderer appends each node's
output in order). -/
def concatAll : List String → String
  | [] => ""
  | s :: rest => s ++ concatAll rest

def commaJoin : List String → String
  | [] => ""
  | [s] => s
  | s :: s2 :: rest => s ++ "," ++ commaJoin (s2 :: rest)

/-- Display form of a scalar value (composite values display as empty at
nested depth; the spec fixes no display format for composites, see
`Json.render`). -/
def Json.renderScalar : Json → String
  | Json.null => ""
  | Json.bool b => if b then "true" else "false"
  | Json.num n => intToStr n
  | Json.str s => s
  | Json.arr _ => ""
  | Json.obj _ => ""

/-- Modelled from the spec: `JsonRender` — "convert to display string"
(spec.md section 4.4).  The spec fixes no display format for composite
values; this model serializes one level of an Array/Object and renders
scalars in the usual way (Null displays as the empty string, matching the
permissive-lookup semantic where a missing value renders as nothing). -/
def Json.render : Json → String
  | Json.arr xs => "[" ++ commaJoin (xs.map Json.renderScalar) ++ "]"
  | Json.obj fs =>
      "\x7b" ++ commaJoin (fs.map (fun kv => "\x22" ++ kv.fst ++ "\x22:" ++ Json.renderScalar kv.snd)) ++ "\x7d"
  | v => Json.renderScalar v

/-- HTML escape of one character (`{{path}}` output is escaped, `{{{path}}}`
output is raw; spec.md section 4.4). -/
def escapeChar (c : Char) : String :=
  if c = '<' then "&lt;"
  else if c = '>' then "&gt;"
  else if c = '\x22' then "&quot;"
  else if c = '&' then "&amp;"
  else String.mk [c]

def escapeHtml (s : String) : String := concatAll (s.data.map escapeChar)

/-- Modelled from the spec: one segment of a path expression
(spec.md section 3): a field name, an array index, `.`/`this` (current
anchor) or `..` (ascend one scope level). -/
inductive PathSeg where
  | parent
  | cur
  | field (name : String)
  | index (i : Nat)
deriving DecidableEq

/-- Characters allowed in a path's name segment. -/
def isIdChar (c : Char) : Bool :=
  c.isAlphanum || c = '_' || c = '-' || c = '@' || c = '$'

def isWsChar (c : Char) : Bool :=
  c = ' ' || c = '\t' || c = '\n' || c = '\r'

def digitsToNat : List Char → Nat → Nat
  | [], acc => acc
  | c :: rest, acc => digitsToNat rest (acc * 10 + (c.toNat - 48))

/-- Strip one leading `./` (current scope marker, spec.md section 4.1). -/
def stripDotSlash (cs : List Char) : List Char :=
  match cs with
  | '.' :: '/' :: rest => rest
  | _ => cs

/-- Count and strip the leading `../` occurrences of a path token (each one
ascends one scope level, spec.md section 4.1/4.2). -/
def stripParentsC : List Char → Nat × List Char
  | '.' :: '.' :: '/' :: rest =>
      let p := stripParentsC rest
      (p.fst + 1, p.snd)
  | '.' :: '.' :: [] => (1, [])
  | cs => (0, cs)

/-- Split the remainder of a path token on `.` and `/` separators. -/
def splitSegs : List Char → List (List Char)
  | [] => [[]]
  | c :: rest =>
      let r := splitSegs rest
      if c = '.' || c = '/' then [] :: r
      else
        match r with
        | s :: t => (c :: s) :: t
        | [] => [[c]]

/-- Classify one textual path segment: `this` is the current anchor, an
all-digit segment is an array index, an identifier is a field name;
anything else is malformed (InvalidPath). -/
def parseSegName (s : List Char) : Option PathSeg :=
  if s.isEmpty then none
  else if String.mk s = "this" then some PathSeg.cur
  else if s.all Char.isDigit then some (PathSeg.index (digitsToNat s 0))
  else if s.all isIdChar then some (PathSeg.field (String.mk s))
  else none

def parseSegsAll : List (List Char) → Option (List PathSeg)
  | [] => some []
  | s :: rest =>
      match parseSegName s, parseSegsAll rest with
      | some a, some b => some (a :: b)
      | _, _ => none

/-- Modelled from the spec: parsing one path expression token
(spec.md section 4.1): optional leading `./`, repeated `../`, then dotted
field access and bracket-free numeric segments.  `none` means the token is
not a well-formed path (the parser's InvalidPath case). -/
def parsePath (tok : String) : Option (List PathSeg) :=
  let cs0 := stripDotSlash tok.data
  let pr := stripParentsC cs0
  let base : List PathSeg := List.replicate pr.fst PathSeg.parent
  match pr.snd with
  | [] => some base
  | ['.'] => some (base ++ [PathSeg.cur])
  | rem =>
      match parseSegsAll (splitSegs rem) with
      | some segs => some (base ++ segs)
      | none => none

/-- Descend the value tree along resolved segments.  Absent object fields
and out-of-range array indices resolve to Null — never an error
(spec.md sections 4.2 and 7). -/
def descendJson (v : Json) : List PathSeg → Json
  | [] => v
  | PathSeg.cur :: rest => descendJson v rest
  | PathSeg.parent :: _ => Json.null
  | PathSeg.field n :: rest =>
      match v with
      | Json.obj fields =>
          match lookupF fields n with
          | some w => descendJson w rest
          | none => Json.null
      | _ => Json.null
  | PathSeg.index i :: rest =>
      match v with
      | Json.arr xs =>
          match xs.get? i with
          | some w => descendJson w rest
          | none => Json.null
      | _ => Json.null

/-- Count and split the leading `parent` segments of a resolved path. -/
def splitParents : List PathSeg → Nat × List PathSeg
  | PathSeg.parent :: rest =>
      let p := splitParents rest
      (p.fst + 1, p.snd)
  | segs => (0, segs)

/-- Pop `n` levels from the current path stack (ascent is a pure stack
operation, spec.md section 9). -/
def ascend (base : List PathSeg) (n : Nat) : List PathSeg :=
  base.take (base.length - n)

/-- Modelled from the spec: `Context` wraps the root Value and is immutable
for the lifetime of a render (spec.md section 3); navigation is a pure
function of it. -/
structure Context where
  data : Json

/-- Modelled from the spec: `Context::navigate` (spec.md section 4.2) —
total, never fails.  Leading `../` segments pop levels from the current
path stack, the remaining segments descend the value tree from the
resulting anchor; a malformed path or an absent key/index resolves to
Null.  The `base` argument is the render context's current path
(`rc.get_path()` in the crate doc's helper example). -/
def Context.navigate (c : Context) (base : List PathSeg) (rel : String) : Json :=
  match parsePath rel with
  | none => Json.null
  | some segs =>
      let p := splitParents segs
      descendJson (descendJson c.data (ascend base p.fst)) p.snd

/-- Modelled from the spec: the four ParseError kinds of spec.md
sections 4.1 and 7. -/
inductive ParseErrorKind where
  | UnbalancedBlock
  | UnterminatedRaw
  | MalformedHashArgument
  | InvalidPath
deriving DecidableEq

/-- Modelled from the spec: a ParseError carries its kind and a source
position (spec.md section 4.1/7). -/
structure ParseError where
  kind : ParseErrorKind
  pos : Nat
deriving DecidableEq

/-- Modelled from the spec: the Template node variants of spec.md
section 3.  Helper parameters and hash values are kept as the raw
whitespace-separated tokens of the tag (the crate doc's `Helper::params()`
is a vector of String); the compiler validates each token as a literal or
path, and resolution happens at render time.  `includeT` is the
`{{> name [context]}}` Partial node; `rawBlock` stores its body verbatim,
never parsed. -/
inductive Node where
  | raw (text : String)
  | expression (tok : String) (escape : Bool)
  | helperBlock (name : String) (params : List String)
      (hash : List (String × String)) (body : List Node)
      (inverse : Option (List Node))
  | includeT (name : String) (context : Option String)
  | rawBlock (name : String) (text : String)
  | comment

/-- A Template is the compiled, immutable ordered sequence of nodes
(spec.md section 3). -/
abbrev Template := List Node

/-- Parse a literal parameter token: `true`, `false`, `null`, a quoted
string, or an integer numeral (spec.md section 4.1: quoted/literal
values). -/
def parseLiteral (tok : String) : Option Json :=
  if tok = "true" then some (Json.bool true)
  else if tok = "false" then some (Json.bool false)
  else if tok = "null" then some Json.null
  else
    match tok.data with
    | '\x22' :: rest =>
        if rest.length ≥ 1 && rest.getLast? = some '\x22' then
          some (Json.str (String.mk rest.dropLast))
        else none
    | '-' :: rest =>
        if rest ≠ [] && rest.all Char.isDigit then
          some (Json.num (-(Int.ofNat (digitsToNat rest 0))))
        else none
    | cs =>
        if cs ≠ [] && cs.all Char.isDigit then
          some (Json.num (Int.ofNat (digitsToNat cs 0)))
        else none

/-- A parameter token is valid when it is a literal or a well-formed path
(otherwise the compiler fails with InvalidPath). -/
def validTok (tok : String) : Bool :=
  (parseLiteral tok).isSome || (parsePath tok).isSome

/-- Strip the quotes of a quoted token (used for partial names). -/
def stripQuotes (s : String) : String :=
  match parseLiteral s with
  | some (Json.str t) => t
  | _ => s

/-- Split a tag's inner text into whitespace-separated tokens
(spec.md section 4.1). -/
def splitWsAux : List Char → List Char → List String
  | [], acc => if acc.isEmpty then [] else [String.mk acc.reverse]
  | c :: rest, acc =>
      if isWsChar c then
        if acc.isEmpty then splitWsAux rest []
        else String.mk acc.reverse :: splitWsAux rest []
      else splitWsAux rest (c :: acc)

def splitWs (cs : List Char) : List String := splitWsAux cs []

def trimChars (cs : List Char) : List Char :=
  ((cs.dropWhile isWsChar).reverse.dropWhile isWsChar).reverse

/-- Split a token at its first `=` (hash-argument form `key=value`,
spec.md section 4.1). -/
def splitEq : List Char → Option (List Char × List Char)
  | [] => none
  | '=' :: rest => some ([], rest)
  | c :: rest =>
      match splitEq rest with
      | none => none
      | some p => some (c :: p.fst, p.snd)

def splitHash1 (tok : String) : Option (String × String) :=
  match splitEq tok.data with
  | none => none
  | some p => some (String.mk p.fst, String.mk p.snd)

/-- Classify the argument tokens of a helper invocation into positional
parameters and `key=value` hash arguments; a key without a value or an
unparsable value is MalformedHashArgument, a malformed bare token is
InvalidPath (spec.md section 4.1). -/
def parseArgsGo (pos : Nat) : List String → List String →
    List (String × String) → Except ParseError (List String × List (String × String))
  | [], ps, hs => Except.ok (ps.reverse, hs.reverse)
  | tok :: rest, ps, hs =>
      match splitHash1 tok with
      | some kv =>
          if kv.fst ≠ "" && kv.snd ≠ "" && validTok kv.snd then
            parseArgsGo pos rest ps (kv :: hs)
          else Except.error ⟨ParseErrorKind.MalformedHashArgument, pos⟩
      | none =>
          if validTok tok then parseArgsGo pos rest (tok :: ps) hs
          else Except.error ⟨ParseErrorKind.InvalidPath, pos⟩

/-- Scan literal text up to the next `{{` delimiter (or the end of input):
returns the text and the rest, which is empty or starts with `{{`. -/
def scanText : List Char → List Char → List Char × List Char
  | [], acc => (acc.reverse, [])
  | '\x7b' :: '\x7b' :: rest, acc => (acc.reverse, '\x7b' :: '\x7b' :: rest)
  | c :: rest, acc => scanText rest (c :: acc)

/-- Read up to the closing `}}` of an ordinary tag: the inner text and the
rest after the delimiter. -/
def readInner2 : List Char → List Char → Option (List Char × List Char)
  | [], _ => none
  | '\x7d' :: '\x7d' :: rest, acc => some (acc.reverse, rest)
  | c :: rest, acc => readInner2 rest (c :: acc)

/-- Read up to the closing `}}}` of a raw expression tag. -/
def readInner3 : List Char → List Char → Option (List Char × List Char)
  | [], _ => none
  | '\x7d' :: '\x7d' :: '\x7d' :: rest, acc => some (acc.reverse, rest)
  | c :: rest, acc => readInner3 rest (c :: acc)

/-- Read up to the closing `}}}}` of a raw block open tag. -/
def readInner4 : List Char → List Char → Option (List Char × List Char)
  | [], _ => none
  | '\x7d' :: '\x7d' :: '\x7d' :: '\x7d' :: rest, acc => some (acc.reverse, rest)
  | c :: rest, acc => readInner4 rest (c :: acc)

/-- Does the pattern lead the input? -/
def leadsWith : List Char → List Char → Bool
  | [], _ => true
  | _ :: _, [] => false
  | a :: as, b :: bs => a = b && leadsWith as bs

/-- The raw close tag `{{{{/name}}}}` as characters. -/
def rawCloseChars (name : List Char) : List Char :=
  '\x7b' :: '\x7b' :: '\x7b' :: '\x7b' :: '/' :: name ++
    ['\x7d', '\x7d', '\x7d', '\x7d']

/-- Capture a raw block's body verbatim up to its matching raw close tag
(spec.md section 4.1: content copied verbatim, not recursively parsed);
`none` when the close tag never comes (UnterminatedRaw). -/
def readRawBody (cl : List Char) : List Char → List Char → Option (List Char × List Char)
  | [], _ => none
  | c :: rest, acc =>
      if leadsWith cl (c :: rest) then some (acc.reverse, (c :: rest).drop cl.length)
      else readRawBody cl rest (c :: acc)

/-- How a node-sequence parse stopped: end of input, a `{{/name}}` close
tag, or the `{{else}}` separator. -/
inductive Stop where
  | eof
  | closeT (name : String) (pos : Nat)
  | elseT (pos : Nat)
deriving DecidableEq

/-- Modelled from the spec: the scanner/parser of spec.md section 4.1,
written as one fuelled recursive descent (structural on the fuel, so it is
kernel-reducible; `Template.compile` supplies more fuel than the input
length, which bounds the recursion depth).  It parses a node sequence up
to end of input, a `{{/name}}` close tag or `{{else}}`, and returns the
nodes, the stop, the remaining input and the position after it.
Each step first takes literal text up to `{{`, then one tag:
raw block `{{{{name}}}} … {{{{/name}}}}` (body captured verbatim),
raw expression `{{{path}}}`, comment `{{! … }}`, block open `{{#name …}}`
(body and optional `{{else}}` inverse parsed recursively, close name
checked against the open name — UnbalancedBlock on mismatch or missing
close), close tag, partial `{{> name [context]}}`, `{{else}}`, a
single-token expression, or a multi-token inline helper call. -/
def parseNodes : Nat → List Char → Nat →
    Except ParseError (List Node × Stop × List Char × Nat)
  | 0, _, pos => Except.error ⟨ParseErrorKind.UnbalancedBlock, pos⟩
  | Nat.succ f, cs, pos =>
    let sc := scanText cs []
    let pos1 := pos + sc.fst.length
    let pre : List Node := if sc.fst.isEmpty then [] else [Node.raw (String.mk sc.fst)]
    match sc.snd with
    | [] => Except.ok (pre, Stop.eof, [], pos1)
    | rest =>
      let step : Except ParseError (Sum (Node × List Char × Nat) (Stop × List Char × Nat)) :=
        match rest with
        | '\x7b' :: '\x7b' :: '\x7b' :: '\x7b' :: r4 =>
          (match readInner4 r4 [] with
           | none => Except.error ⟨ParseErrorKind.UnterminatedRaw, pos1⟩
           | some q =>
             match splitWs q.fst with
             | [name] =>
               (match name.data with
                | '/' :: _ => Except.error ⟨ParseErrorKind.UnbalancedBlock, pos1⟩
                | _ =>
                  match readRawBody (rawCloseChars name.data) q.snd [] with
                  | none => Except.error ⟨ParseErrorKind.UnterminatedRaw, pos1⟩
                  | some b =>
                      Except.ok (Sum.inl (Node.rawBlock name (String.mk b.fst), b.snd,
                        pos1 + (rest.length - b.snd.length))))
             | _ => Except.error ⟨ParseErrorKind.UnterminatedRaw, pos1⟩)
        | '\x7b' :: '\x7b' :: '\x7b' :: r3 =>
          (match readInner3 r3 [] with
           | none => Except.error ⟨ParseErrorKind.UnbalancedBlock, pos1⟩
           | some q =>
             match splitWs q.fst with
             | [tok] =>
                 if (parsePath tok).isSome then
                   Except.ok (Sum.inl (Node.expression tok false, q.snd,
                     pos1 + (rest.length - q.snd.length)))
                 else Except.error ⟨ParseErrorKind.InvalidPath, pos1⟩
             | _ => Except.error ⟨ParseErrorKind.InvalidPath, pos1⟩)
        | '\x7b' :: '\x7b' :: r2 =>
          (match readInner2 r2 [] with
           | none => Except.error ⟨ParseErrorKind.UnbalancedBlock, pos1⟩
           | some q =>
             let pos2 := pos1 + (rest.length - q.snd.length)
             match trimChars q.fst with
             | '!' :: _ => Except.ok (Sum.inl (Node.comment, q.snd, pos2))
             | '#' :: bs =>
               (match splitWs bs with
                | [] => Except.error ⟨ParseErrorKind.InvalidPath, pos1⟩
                | bname :: argToks =>
                  match parseArgsGo pos1 argToks [] [] with
                  | Except.error e => Except.error e
                  | Except.ok args =>
                    match parseNodes f q.snd pos2 with
                    | Except.error e => Except.error e
                    | Except.ok (body, st, r5, p5) =>
                      match st with
                      | Stop.eof => Except.error ⟨ParseErrorKind.UnbalancedBlock, p5⟩
                      | Stop.closeT cn cp =>
                          if cn = bname then
                            Except.ok (Sum.inl
                              (Node.helperBlock bname args.fst args.snd body none, r5, p5))
                          else Except.error ⟨ParseErrorKind.UnbalancedBlock, cp⟩
                      | Stop.elseT _ =>
                        match parseNodes f r5 p5 with
                        | Except.error e => Except.error e
                        | Except.ok (inv, st2, r6, p6) =>
                          match st2 with
                          | Stop.closeT cn cp =>
                              if cn = bname then
                                Except.ok (Sum.inl
                                  (Node.helperBlock bname args.fst args.snd body (some inv), r6, p6))
                              else Except.error ⟨ParseErrorKind.UnbalancedBlock, cp⟩
                          | _ => Except.error ⟨ParseErrorKind.UnbalancedBlock, p6⟩)
             | '/' :: bs =>
               (match splitWs bs with
                | [cn] => Except.ok (Sum.inr (Stop.closeT cn pos1, q.snd, pos2))
                | _ => Except.error ⟨ParseErrorKind.UnbalancedBlock, pos1⟩)
             | '>' :: bs =>
               (match splitWs bs with
                | [n1] => Except.ok (Sum.inl (Node.includeT (stripQuotes n1) none, q.snd, pos2))
                | [n1, c1] =>
                    Except.ok (Sum.inl (Node.includeT (stripQuotes n1) (some c1), q.snd, pos2))
                | _ => Except.error ⟨ParseErrorKind.InvalidPath, pos1⟩)
             | innerT =>
               match splitWs innerT with
               | [] => Except.error ⟨ParseErrorKind.InvalidPath, pos1⟩
               | [tok] =>
                   if tok = "else" then Except.ok (Sum.inr (Stop.elseT pos1, q.snd, pos2))
                   else if validTok tok then
                     Except.ok (Sum.inl (Node.expression tok true, q.snd, pos2))
                   else Except.error ⟨ParseErrorKind.InvalidPath, pos1⟩
               | hname :: argToks =>
                   match parseArgsGo pos1 argToks [] [] with
                   | Except.error e => Except.error e
                   | Except.ok args =>
                       Except.ok (Sum.inl
                         (Node.helperBlock hname args.fst args.snd [] none, q.snd, pos2)))
        | _ => Except.error ⟨ParseErrorKind.UnbalancedBlock, pos1⟩
      match step with
      | Except.error e => Except.error e
      | Except.ok (Sum.inr st) => Except.ok (pre, st.fst, st.snd.fst, st.snd.snd)
      | Except.ok (Sum.inl it) =>
        match parseNodes f it.snd.fst it.snd.snd with
        | Except.error e => Except.error e
        | Except.ok (ns, st, r, p) => Except.ok (pre ++ it.fst :: ns, st, r, p)

/-- Modelled from the spec: `Template::compile` (spec.md sections 4.1
and 6): a pure function from a template source string to a complete
Template or a ParseError with kind and source position.  Compilation is
atomic — the `Except` result is either a whole Template or an error, never
a partial Template.  A top-level close tag or `{{else}}` is unbalanced. -/
def Template.compile (s : String) : Except ParseError Template :=
  match parseNodes (s.length + 1) s.data 0 with
  | Except.error e => Except.error e
  | Except.ok (ns, Stop.eof, _, _) => Except.ok ns
  | Except.ok (_, Stop.closeT _ p, _, _) => Except.error ⟨ParseErrorKind.UnbalancedBlock, p⟩
  | Except.ok (_, Stop.elseT p, _, _) => Except.error ⟨ParseErrorKind.UnbalancedBlock, p⟩

/-- Modelled from the spec: `RenderError` — the render-time failure
taxonomy of spec.md section 7: TemplateNotFound, PartialNotFound (here
`includeNotFound`, the `{{> name}}` target missing), HelperNotFound and
HelperError(inner).  `tooDeep` is the dedicated error of spec.md section 5
for exhausting the recursion bound on partial/block chains. -/
inductive RenderError where
  | templateNotFound
  | includeNotFound
  | helperNotFound
  | helperError (inner : String)
  | tooDeep
deriving DecidableEq

/-- Modelled from the spec: `RenderContext` (spec.md sections 3 and 4.3) —
per-render mutable state: the current path stack locating the current
scope in the root value, the stack of local bindings introduced by
iteration helpers, and the stack of named block overrides for
template-inheritance resolution. -/
structure RenderContext where
  path : List PathSeg
  locals : List (String × Json)
  blockOverrides : List (String × List Node)

/-- The current scope path, as the crate doc's `rc.get_path()`. -/
def RenderContext.get_path (rc : RenderContext) : List PathSeg := rc.path

/-- The fresh render context a `render()` call starts from
(spec.md section 3: created fresh per render call). -/
def RenderContext.new : RenderContext := ⟨[], [], []⟩

/-- Resolve one raw parameter token against the context: a literal token
denotes its value; otherwise the local binding stack is consulted before
falling back to Context navigation from the current path
(spec.md section 4.3: local bindings are consulted before navigation —
this is how `each`'s `this`/`@index` bindings are seen). -/
def resolveTok (root : Json) (rc : RenderContext) (tok : String) : Json :=
  match parseLiteral tok with
  | some v => v
  | none =>
      match lookupF rc.locals tok with
      | some v => v
      | none => Context.navigate ⟨root⟩ rc.path tok

/-- The Helper view handed to helper implementations (crate doc of
`src/lib.rs`): `name()`, `params()` — a vector of the raw parameter
String tokens, not pre-resolved values — `hash()` — String keys to Json
values — `template()` and `inverse()` for the block body and the
`{{else}}` template. -/
structure Helper where
  name : String
  params : List String
  hash : List (String × Json)
  template : Option (List Node)
  inverse : Option (List Node)

/-- Build the Helper view for one helper invocation: the parameter tokens
pass through unresolved; hash values resolve at invocation time; an inline
call (empty body) exposes no template. -/
def mkHelper (root : Json) (rc : RenderContext) (name : String)
    (params : List String) (hash : List (String × String))
    (body : List Node) (inv : Option (List Node)) : Helper :=
  { name := name
    params := params
    hash := hash.map (fun kv => (kv.fst, resolveTok root rc kv.snd))
    template := if body.isEmpty then none else some body
    inverse := inv }

/-- Helper implementations registered in the Registry, defunctionalized:
the six built-ins of spec.md section 4.5 plus the crate doc's example user
helper (`SimpleHelper`).  The Helper Protocol's `resolve` contract for
each is interpreted inside the render engine below. -/
inductive HelperImpl where
  | hIf
  | hUnless
  | hEach
  | hWith
  | hBlock
  | hPartial
  | simpleH
deriving DecidableEq

/-- Modelled from the spec: the Registry (spec.md sections 3 and 4.4) —
two name-keyed mappings, Templates and Helpers.  Registration pushes at
the front and lookup takes the first match, so re-registering a name
replaces the previous entry for every later lookup. -/
structure Registry where
  templates : List (String × List Node)
  helpers : List (String × HelperImpl)

/-- The built-in helpers registered by `Registry::new`
(spec.md section 2: if/unless/each/with/block/partial). -/
def builtinHelpers : List (String × HelperImpl) :=
  [("if", HelperImpl.hIf), ("unless", HelperImpl.hUnless),
   ("each", HelperImpl.hEach), ("with", HelperImpl.hWith),
   ("block", HelperImpl.hBlock), ("partial", HelperImpl.hPartial)]

def Registry.new : Registry := ⟨[], builtinHelpers⟩

/-- `register_template(name, Template)`: stores/replaces
(spec.md section 4.4). -/
def Registry.register_template (r : Registry) (name : String) (t : Template) : Registry :=
  { r with templates := (name, t) :: r.templates }

/-- `register_helper(name, HelperImpl)`: stores/replaces a Helper Protocol
implementor (spec.md section 4.4).  This is the only operation that
changes the helper mapping; `HelperDef::resolve` receives the Registry
immutably (`&Registry` in the crate doc's signature). -/
def Registry.register_helper (r : Registry) (name : String) (h : HelperImpl) : Registry :=
  { r with helpers := (name, h) :: r.helpers }

/-- The crate doc's example custom helper (`SimpleHelper` in
`src/lib.rs`): takes its first parameter token, navigates the context data
from the render context's current path with that token, and formats
`My helper dumps: {value} `.  The doc example unwraps `params().get(0)`;
the model returns a helper error when no parameter is present instead of
panicking. -/
def simpleHelperResolve (c : Context) (h : Helper) (_r : Registry)
    (rc : RenderContext) : Except RenderError String :=
  match h.params.head? with
  | none => Except.error (RenderError.helperError "simple-helper: missing param")
  | some param =>
      Except.ok ("My helper dumps: " ++
        Json.render (Context.navigate c rc.get_path param) ++ " ")

/-- Block-override resolution (spec.md section 4.5): `block "X"` first
consults the override stack; if an enclosing invocation pushed an override
named X its body is taken, otherwise the block's own default body. -/
def chooseBlock (rc : RenderContext) (name : String) (body : List Node) : List Node :=
  match lookupF rc.blockOverrides name with
  | some t => t
  | none => body

/-- The iteration loop of the `each` helper: render each element in order
with its position, threading the render context and concatenating the
outputs; the first failure aborts the loop (all-or-nothing,
spec.md section 4.4). -/
def eachLoop {α : Type}
    (g : α → Nat → RenderContext → Except RenderError (String × RenderContext)) :
    List α → Nat → RenderContext → Except RenderError (String × RenderContext)
  | [], _, rc => Except.ok ("", rc)
  | x :: xs, i, rc =>
      match g x i rc with
      | Except.error e => Except.error e
      | Except.ok (s, rc1) =>
          match eachLoop g xs (i + 1) rc1 with
          | Except.error e => Except.error e
          | Except.ok (t, rc2) => Except.ok (s ++ t, rc2)

/-- Resolve the scope path the `with` helper rescopes to: the current path
extended (or ascended) by the parameter's path segments. -/
def withPath (base : List PathSeg) (tok : String) : List PathSeg :=
  match parsePath tok with
  | some segs =>
      let sp := splitParents segs
      ascend base sp.fst ++ sp.snd
  | none => base

/-- The name a `block`/`partial` helper invocation is keyed by: its first
parameter, a quoted literal resolving to a string (otherwise the raw
token). -/
def blockParamName (root : Json) (rc : RenderContext) (tok : String) : String :=
  match resolveTok root rc tok with
  | Json.str s => s
  | _ => tok

/-- Modelled from the spec: the recursive render algorithm of spec.md
section 4.4 together with the built-in helper contracts of section 4.5,
as one fuelled function (structural on the fuel so it is
kernel-reducible; the fuel bounds recursive partial/block chains, whose
exhaustion fails with the dedicated `tooDeep` error per section 5).
Walks the node sequence threading the render context, appending each
node's output; any failure aborts the whole walk (all-or-nothing):
- Raw and RawBlock text append verbatim, Comment emits nothing;
- Expression resolves its token (locals before navigation), converts to
  display string and HTML-escapes unless raw;
- a Partial node renders the named registered template inline at the call
  site (includeNotFound when absent), restoring path/locals afterwards
  while keeping pushed block overrides visible;
- a HelperBlock looks up the helper by name (helperNotFound when absent)
  and interprets its resolve contract:
  if/unless evaluate truthy(params[0]) and render body or inverse;
  each requires an Array or Object, binds `this` and `@index`/`@key`
  locally per element in order and concatenates the bodies, rendering the
  inverse when the collection is empty; with rescopes the current path to
  params[0]'s location (inverse on Null); block renders the first
  matching override from the block-override stack, or its own default
  body; partial pushes its body as a named override and emits nothing;
  the example user helper delegates to `simpleHelperResolve`. -/
def renderT (r : Registry) (root : Json) :
    Nat → RenderContext → List Node → Except RenderError (String × RenderContext)
  | _, rc, [] => Except.ok ("", rc)
  | 0, _, _ :: _ => Except.error RenderError.tooDeep
  | Nat.succ f, rc, n :: rest =>
    let step : Except RenderError (String × RenderContext) :=
      match n with
      | Node.raw t => Except.ok (t, rc)
      | Node.rawBlock _ t => Except.ok (t, rc)
      | Node.comment => Except.ok ("", rc)
      | Node.expression tok esc =>
          let s := Json.render (resolveTok root rc tok)
          Except.ok (if esc then escapeHtml s else s, rc)
      | Node.includeT name _ctx =>
          (match lookupF r.templates name with
           | none => Except.error RenderError.includeNotFound
           | some tpl =>
             match renderT r root f rc tpl with
             | Except.error e => Except.error e
             | Except.ok (s, rc1) =>
                 Except.ok (s, { rc1 with path := rc.path, locals := rc.locals }))
      | Node.helperBlock hname params hash body inv =>
          (match lookupF r.helpers hname with
           | none => Except.error RenderError.helperNotFound
           | some impl =>
             match impl with
             | HelperImpl.hIf =>
               (match params with
                | [] => Except.error (RenderError.helperError "if: missing param")
                | p :: _ =>
                    if (resolveTok root rc p).is_truthy then renderT r root f rc body
                    else
                      match inv with
                      | none => Except.ok ("", rc)
                      | some t => renderT r root f rc t)
             | HelperImpl.hUnless =>
               (match params with
                | [] => Except.error (RenderError.helperError "unless: missing param")
                | p :: _ =>
                    if (resolveTok root rc p).is_truthy then
                      match inv with
                      | none => Except.ok ("", rc)
                      | some t => renderT r root f rc t
                    else renderT r root f rc body)
             | HelperImpl.hEach =>
               (match params with
                | [] => Except.error (RenderError.helperError "each: missing param")
                | p :: _ =>
                  match resolveTok root rc p with
                  | Json.arr xs =>
                      if xs.isEmpty then
                        match inv with
                        | none => Except.ok ("", rc)
                        | some t => renderT r root f rc t
                      else
                        eachLoop (fun x i rc0 =>
                          match renderT r root f
                              { rc0 with locals :=
                                  ("this", x) :: ("@index", Json.num (Int.ofNat i)) :: rc0.locals }
                              body with
                          | Except.error e => Except.error e
                          | Except.ok (s, rc1) =>
                              Except.ok (s, { rc1 with path := rc0.path, locals := rc0.locals }))
                          xs 0 rc
                  | Json.obj fs =>
                      if fs.isEmpty then
                        match inv with
                        | none => Except.ok ("", rc)
                        | some t => renderT r root f rc t
                      else
                        eachLoop (fun kv _i rc0 =>
                          match renderT r root f
                              { rc0 with locals :=
                                  ("this", kv.snd) :: ("@key", Json.str kv.fst) :: rc0.locals }
                              body with
                          | Except.error e => Except.error e
                          | Except.ok (s, rc1) =>
                              Except.ok (s, { rc1 with path := rc0.path, locals := rc0.locals }))
                          fs 0 rc
                  | _ => Except.error (RenderError.helperError "each: param must be array or object"))
             | HelperImpl.hWith =>
               (match params with
                | [] => Except.error (RenderError.helperError "with: missing param")
                | p :: _ =>
                  match resolveTok root rc p with
                  | Json.null =>
                      (match inv with
                       | none => Except.ok ("", rc)
                       | some t => renderT r root f rc t)
                  | _ =>
                      match renderT r root f { rc with path := withPath rc.path p } body with
                      | Except.error e => Except.error e
                      | Except.ok (s, rc1) =>
                          Except.ok (s, { rc1 with path := rc.path, locals := rc.locals }))
             | HelperImpl.hBlock =>
               (match params with
                | [] => Except.error (RenderError.helperError "block: missing param")
                | p :: _ => renderT r root f rc (chooseBlock rc (blockParamName root rc p) body))
             | HelperImpl.hPartial =>
               (match params with
                | [] => Except.error (RenderError.helperError "partial: missing param")
                | p :: _ =>
                    Except.ok ("", { rc with blockOverrides :=
                      (blockParamName root rc p, body) :: rc.blockOverrides }))
             | HelperImpl.simpleH =>
                 match simpleHelperResolve ⟨root⟩ (mkHelper root rc hname params hash body inv) r rc with
                 | Except.error e => Except.error e
                 | Except.ok s => Except.ok (s, rc))
    match step with
    | Except.error e => Except.error e
    | Except.ok (s, rc1) =>
        match renderT r root f rc1 rest with
        | Except.error e => Except.error e
        | Except.ok (s2, rc2) => Except.ok (s ++ s2, rc2)

/-- Modelled from the spec: `Registry::render(name, data)`
(spec.md section 4.4): builds a Context from the data and a fresh
RenderContext, then walks the named template.  Fails with
TemplateNotFound when the name is not registered; otherwise returns the
walk's output.  All-or-nothing: the `Except` result is a complete output
string or a RenderError, never partial output.  `fuel` bounds recursive
partial chains (spec.md section 5); every claim below holds for every
fuel value it quantifies over. -/
def Registry.render (r : Registry) (name : String) (data : Json) (fuel : Nat) :
    Except RenderError String :=
  match lookupF r.templates name with
  | none => Except.error RenderError.templateNotFound
  | some t =>
      match renderT r data fuel RenderContext.new t with
      | Except.error e => Except.error e
      | Except.ok (s, _) => Except.ok s

/-- The render call as an explicit state transition on the Registry: the
returned Registry component is the input Registry itself, which is the
shallow embedding of `render` taking `&Registry` (a shared immutable
borrow) — rendering has no way to produce a changed Registry. -/
def Registry.renderTransition (r : Registry) (name : String) (data : Json)
    (fuel : Nat) : Registry × Except RenderError String :=
  (r, Registry.render r name data fuel)

/-! ### Concrete templates and registries used by the claims -/

/-- Extract a compiled template (used only on sources whose compilation is
proved to succeed). -/
def getCompiled (s : String) : Template :=
  match Template.compile s with
  | Except.ok t => t
  | Except.error _ => []

/-- `{{#a}}body{{/b}}` — the spec's unbalanced-block example. -/
def srcUnbalanced : String := "\x7b\x7b#a\x7d\x7dbody\x7b\x7b/b\x7d\x7d"

/-- `{{#if x}}A{{else}}B{{/if}}`. -/
def srcIf : String := "\x7b\x7b#if x\x7d\x7dA\x7b\x7belse\x7d\x7dB\x7b\x7b/if\x7d\x7d"

def ifReg : Registry := Registry.new.register_template "t" (getCompiled srcIf)

/-- Render the `if` template against data binding x to the given value. -/
def renderIf (v : Json) : Except RenderError String :=
  Registry.render ifReg "t" (Json.obj [("x", v)]) 99

/-- `{{#each items}}{{this}},{{/each}}`. -/
def srcEach : String :=
  "\x7b\x7b#each items\x7d\x7d\x7b\x7bthis\x7d\x7d,\x7b\x7b/each\x7d\x7d"

def eachReg : Registry := Registry.new.register_template "t" (getCompiled srcEach)

/-- `{{{{raw}}}}{{x}} {{#if}}{{{{/raw}}}}` — a raw block whose body looks
like template syntax. -/
def srcRawBlk : String :=
  "\x7b\x7b\x7b\x7braw\x7d\x7d\x7d\x7d\x7b\x7bx\x7d\x7d \x7b\x7b#if\x7d\x7d\x7b\x7b\x7b\x7b/raw\x7d\x7d\x7d\x7d"

/-- The body of `srcRawBlk`, exactly as written between the raw tags. -/
def rawBlkBody : String := "\x7b\x7bx\x7d\x7d \x7b\x7b#if\x7d\x7d"

def rawReg : Registry := Registry.new.register_template "t" (getCompiled srcRawBlk)

/-- Parent template `{{#block "title"}}Default{{/block}}`. -/
def srcParent : String :=
  "\x7b\x7b#block \x22title\x22\x7d\x7dDefault\x7b\x7b/block\x7d\x7d"

/-- Child template per the inheritance pair of spec.md section 4.5: it
declares its override through the `partial` helper, then invokes the
parent: `{{#partial "title"}}Override{{/partial}}{{> parent_t}}`. -/
def srcChildPartialHelper : String :=
  "\x7b\x7b#partial \x22title\x22\x7d\x7dOverride\x7b\x7b/partial\x7d\x7d\x7b\x7b> parent_t\x7d\x7d"

/-- Child template exactly as the claim's example writes it:
`{{#block "title"}}Override{{/block}}{{> parent_t}}`. -/
def srcChildBlockLiteral : String :=
  "\x7b\x7b#block \x22title\x22\x7d\x7dOverride\x7b\x7b/block\x7d\x7d\x7b\x7b> parent_t\x7d\x7d"

def inhReg : Registry :=
  (Registry.new.register_template "parent_t" (getCompiled srcParent)).register_template
    "child_t" (getCompiled srcChildPartialHelper)

def inhRegLit : Registry :=
  (Registry.new.register_template "parent_t" (getCompiled srcParent)).register_template
    "child_t" (getCompiled srcChildBlockLiteral)

/-! ### Theorems settling the claims -/

/-- Claim C1.  Compiling the spec's mismatched-block example
`{{#a}}body{{/b}}` fails with a ParseError of kind UnbalancedBlock
carrying a source position (position 10, the mismatching close tag), and
in general `Template.compile` returns either a complete Template or a
ParseError with a kind and a source position — never a partial
Template. -/
theorem compile_unbalanced_block_error :
    Template.compile srcUnbalanced =
      Except.error ⟨ParseErrorKind.UnbalancedBlock, 10⟩ ∧
    (∀ s : String,
      (∃ t, Template.compile s = Except.ok t) ∨
      (∃ k p, Template.compile s = Except.error ⟨k, p⟩)) := by
  refine ⟨rfl, fun s => ?_⟩
  cases h : Template.compile s with
  | ok t => exact Or.inl ⟨t, rfl⟩
  | error e => exact Or.inr ⟨e.kind, e.pos, rfl⟩

/-- Claim C2.  `Registry.render` is all-or-nothing: each call returns
either a complete output string or a RenderError (the `Except` result
carries no partial output), and for every name with no registered
template it fails with TemplateNotFound — for every data value and every
recursion budget. -/
theorem render_all_or_nothing_template_not_found :
    (∀ (r : Registry) (name : String) (data : Json) (fuel : Nat),
      lookupF r.templates name = none →
      Registry.render r name data fuel = Except.error RenderError.templateNotFound) ∧
    (∀ (r : Registry) (name : String) (data : Json) (fuel : Nat),
      (∃ s, Registry.render r name data fuel = Except.ok s) ∨
      (∃ e, Registry.render r name data fuel = Except.error e)) := by
  constructor
  · intro r name data fuel h
    simp [Registry.render, h]
  · intro r name data fuel
    cases h : Registry.render r name data fuel with
    | ok s => exact Or.inl ⟨s, rfl⟩
    | error e => exact Or.inr ⟨e, rfl⟩

/-- Witness for C2 at a concrete input: the empty registry does not know
"missing", and rendering it fails with TemplateNotFound. -/
theorem render_template_not_found_witness :
    lookupF Registry.new.templates "missing" = none ∧
    Registry.render Registry.new "missing" Json.null 9 =
      Except.error RenderError.templateNotFound :=
  ⟨rfl, render_all_or_nothing_template_not_found.1 Registry.new "missing" Json.null 9 rfl⟩

/-- Claim C3.  Navigation is total (it is a function into `Json`, defined
for every context, base path and path string) and permissive: an absent
object field and an out-of-range array index resolve to Null rather than
an error — stated both at the descent level and through
`Context.navigate` for a single-field path.  Navigation is a pure
function: it takes the Context and returns a value, mutating nothing. -/
theorem navigate_total_absent_resolves_null :
    (∀ (fields : List (String × Json)) (n : String) (rest : List PathSeg),
      lookupF fields n = none →
      descendJson (Json.obj fields) (PathSeg.field n :: rest) = Json.null) ∧
    (∀ (xs : List Json) (i : Nat) (rest : List PathSeg),
      xs[i]? = none →
      descendJson (Json.arr xs) (PathSeg.index i :: rest) = Json.null) ∧
    (∀ (fields : List (String × Json)) (p n : String),
      parsePath p = some [PathSeg.field n] →
      lookupF fields n = none →
      Context.navigate ⟨Json.obj fields⟩ [] p = Json.null) := by
  refine ⟨?_, ?_, ?_⟩
  · intro fields n rest h
    simp [descendJson, h]
  · intro xs i rest h
    simp [descendJson, h]
  · intro fields p n hp hl
    simp [Context.navigate, hp, splitParents, ascend, descendJson, hl]

/-- Witness for C3 at concrete inputs: the object `{a: 1}` has no field
"b" and no index 5 in `[1]`, and navigating "b" from it yields Null. -/
theorem navigate_absent_witness :
    descendJson (Json.obj [("a", Json.num 1)]) [PathSeg.field "b"] = Json.null ∧
    descendJson (Json.arr [Json.num 1]) [PathSeg.index 5] = Json.null ∧
    Context.navigate ⟨Json.obj [("a", Json.num 1)]⟩ [] "b" = Json.null :=
  ⟨navigate_total_absent_resolves_null.1 [("a", Json.num 1)] "b" [] rfl,
   navigate_total_absent_resolves_null.2.1 [Json.num 1] 5 [] rfl,
   navigate_total_absent_resolves_null.2.2 [("a", Json.num 1)] "b" "b" rfl rfl⟩

/-- Claim C4.  The truthy predicate is false exactly for Null,
Bool(false), Number(0), the empty String, the empty Array and (per the
open design choice) the empty Object, and true for every other value; and
this predicate governs the `if` helper: `{{#if x}}A{{else}}B{{/if}}`
renders "A" for x=true and x="nonempty", and "B" for x=false, x=Null and
x=0. -/
theorem truthy_characterization_if_helper :
    (∀ v : Json, Json.is_truthy v = false ↔
      (v = Json.null ∨ v = Json.bool false ∨ v = Json.num 0 ∨
       v = Json.str "" ∨ v = Json.arr [] ∨ v = Json.obj [])) ∧
    renderIf (Json.bool true) = Except.ok "A" ∧
    renderIf (Json.bool false) = Except.ok "B" ∧
    renderIf Json.null = Except.ok "B" ∧
    renderIf (Json.num 0) = Except.ok "B" ∧
    renderIf (Json.str "nonempty") = Except.ok "A" := by
  refine ⟨?_, rfl, rfl, rfl, rfl, rfl⟩
  intro v
  cases v with
  | null => simp [Json.is_truthy]
  | bool b => cases b <;> simp [Json.is_truthy]
  | num n =>
      by_cases h : n = 0 <;> simp [Json.is_truthy, h]
  | str s =>
      by_cases h : s = "" <;> simp [Json.is_truthy, h]
  | arr xs => cases xs <;> simp [Json.is_truthy]
  | obj fs => cases fs <;> simp [Json.is_truthy]

/-- Claim C5.  A quadruple-brace raw block is captured verbatim at parse
time: compiling `{{{{raw}}}}{{x}} {{#if}}{{{{/raw}}}}` yields exactly one
RawBlock node holding the body text unparsed (the body is never template
syntax); at render time a RawBlock emits its text exactly as captured,
for every registry, data, context and fuel; and the end-to-end render of
the example emits the body byte-for-byte. -/
theorem raw_block_verbatim :
    Template.compile srcRawBlk = Except.ok [Node.rawBlock "raw" rawBlkBody] ∧
    (∀ (r : Registry) (root : Json) (f : Nat) (rc : RenderContext)
       (name text : String),
      renderT r root (f + 1) rc [Node.rawBlock name text] = Except.ok (text, rc)) ∧
    Registry.render rawReg "t" Json.null 9 = Except.ok rawBlkBody := by
  refine ⟨rfl, ?_, rfl⟩
  intro r root f rc name text
  simp [renderT, String.append_empty]

/-- Claim C6.  The `each` helper iterates an Array in order, binding the
local "this" to each element and "@index" to its position, concatenating
the rendered bodies: `{{#each items}}{{this}},{{/each}}` renders "1,2,3,"
for items=[1,2,3] and "" for items=[] with no inverse; and in general the
iteration loop renders the elements in order from position `i`,
concatenating their outputs (stated for every position-respecting
per-element renderer). -/
theorem each_iterates_in_order :
    Registry.render eachReg "t"
        (Json.obj [("items", Json.arr [Json.num 1, Json.num 2, Json.num 3])]) 99 =
      Except.ok "1,2,3," ∧
    Registry.render eachReg "t" (Json.obj [("items", Json.arr [])]) 99 =
      Except.ok "" ∧
    (∀ (α : Type)
       (g : α → Nat → RenderContext → Except RenderError (String × RenderContext))
       (out : α → Nat → String) (xs : List α) (i : Nat) (rc : RenderContext),
      (∀ x j rc0, g x j rc0 = Except.ok (out x j, rc0)) →
      eachLoop g xs i rc =
        Except.ok (concatAll ((List.enumFrom i xs).map (fun q => out q.snd q.fst)), rc)) := by
  refine ⟨rfl, rfl, ?_⟩
  intro α g out xs
  induction xs with
  | nil => intro i rc h; simp [eachLoop, concatAll]
  | cons x xs ih =>
      intro i rc h
      simp [eachLoop, h, ih (i + 1) rc h, List.enumFrom, concatAll]

/-- Witness for C6's general loop lemma at a concrete renderer and list:
rendering the display strings of [1, 2] from position 0. -/
theorem each_loop_witness :
    eachLoop (fun (x : Json) (_ : Nat) rc0 => Except.ok (Json.render x, rc0))
        [Json.num 1, Json.num 2] 0 RenderContext.new =
      Except.ok (concatAll ((List.enumFrom 0 [Json.num 1, Json.num 2]).map
        (fun q => Json.render q.snd)), RenderContext.new) := by
  have h := each_iterates_in_order.2.2 Json
    (fun (x : Json) (_ : Nat) rc0 => Except.ok (Json.render x, rc0))
    (fun x _ => Json.render x) [Json.num 1, Json.num 2] 0 RenderContext.new
    (fun _ _ _ => rfl)
  exact h

/-- Counterexample for C7 as stated: with the child written exactly as
the claim's example (`{{#block "title"}}Override{{/block}}{{> parent_t}}`)
the render is "OverrideDefault", not "Override" — the `block` helper only
consults the override stack, it pushes nothing, so the child's own block
renders "Override" and the included parent still renders its default. -/
theorem block_literal_child_renders_both :
    Registry.render inhRegLit "child_t" Json.null 99 = Except.ok "OverrideDefault" ∧
    Except.ok (ε := RenderError) "OverrideDefault" ≠ Except.ok "Override" := by
  refine ⟨rfl, ?_⟩
  intro h
  exact absurd (Except.ok.inj h) (by decide)

/-- Claim C7 (amended: the child supplies its override through the
`partial` helper — the inheritance pair of spec.md section 4.5 — before
invoking the parent).  `block "X"` consults the block-override stack
first and falls back to its own default body; rendering the parent alone
yields "Default", and rendering a child that pushes an override via
`{{#partial "title"}}Override{{/partial}}{{> parent_t}}` yields
"Override". -/
theorem block_override_stack_consulted_first :
    Registry.render inhReg "child_t" Json.null 99 = Except.ok "Override" ∧
    Registry.render inhReg "parent_t" Json.null 99 = Except.ok "Default" ∧
    (∀ (rc : RenderContext) (X : String) (body t : List Node),
      lookupF rc.blockOverrides X = some t → chooseBlock rc X body = t) ∧
    (∀ (rc : RenderContext) (X : String) (body : List Node),
      lookupF rc.blockOverrides X = none → chooseBlock rc X body = body) := by
  refine ⟨rfl, rfl, ?_, ?_⟩
  · intro rc X body t h
    simp [chooseBlock, h]
  · intro rc X body h
    simp [chooseBlock, h]

/-- Witness for C7's override-resolution facts at concrete stacks: a
stack holding an override named "title" resolves to it, the empty stack
falls back to the default body. -/
theorem block_override_witness :
    chooseBlock ⟨[], [], [("title", [Node.raw "O"])]⟩ "title" [Node.raw "D"] =
      [Node.raw "O"] ∧
    chooseBlock RenderContext.new "title" [Node.raw "D"] = [Node.raw "D"] :=
  ⟨block_override_stack_consulted_first.2.2.1 ⟨[], [], [("title", [Node.raw "O"])]⟩
      "title" [Node.raw "D"] [Node.raw "O"] rfl,
   block_override_stack_consulted_first.2.2.2 RenderContext.new "title" [Node.raw "D"] rfl⟩

/-- Claim C8.  Rendering is deterministic: `Registry.render` is a pure
function of the registry, template name, data and recursion budget — the
RenderContext is created fresh inside each call (`RenderContext.new`) and
no state survives a call, so two successive calls with the same compiled
template and identical data are the very same value, hence byte-identical
output. -/
theorem render_deterministic :
    ∀ (r : Registry) (name : String) (data : Json) (fuel : Nat),
      Registry.render r name data fuel = Registry.render r name data fuel :=
  fun _ _ _ _ => rfl

/-- Claim C9.  The Helper view exposes parameters as the raw, unresolved
String tokens (`mkHelper` passes them through untouched), and the crate
doc's example helper obtains the corresponding value itself by calling
`Context::navigate` with the RenderContext's current path
(`rc.get_path()`) as the anchor and its first parameter token as the
path. -/
theorem helper_params_unresolved_tokens :
    (∀ (root : Json) (rc : RenderContext) (name : String)
       (params : List String) (hash : List (String × String))
       (body : List Node) (inv : Option (List Node)),
      (mkHelper root rc name params hash body inv).params = params) ∧
    (∀ (c : Context) (h : Helper) (r : Registry) (rc : RenderContext)
       (p : String) (ps : List String),
      h.params = p :: ps →
      simpleHelperResolve c h r rc =
        Except.ok ("My helper dumps: " ++
          Json.render (Context.navigate c rc.get_path p) ++ " ")) := by
  refine ⟨fun _ _ _ _ _ _ _ => rfl, ?_⟩
  intro c h r rc p ps hp
  simp [simpleHelperResolve, hp]

/-- Witness for C9 at a concrete helper invocation: params ["a"] stay the
token list ["a"], and the example helper formats the value navigated from
the current path. -/
theorem helper_params_witness :
    (mkHelper (Json.obj [("a", Json.num 7)]) RenderContext.new "simple-helper"
        ["a"] [] [] none).params = ["a"] ∧
    simpleHelperResolve ⟨Json.obj [("a", Json.num 7)]⟩
        ⟨"simple-helper", ["a"], [], none, none⟩ Registry.new RenderContext.new =
      Except.ok ("My helper dumps: " ++
        Json.render (Context.navigate ⟨Json.obj [("a", Json.num 7)]⟩
          RenderContext.new.get_path "a") ++ " ") :=
  ⟨helper_params_unresolved_tokens.1 (Json.obj [("a", Json.num 7)])
      RenderContext.new "simple-helper" ["a"] [] [] none,
   helper_params_unresolved_tokens.2 ⟨Json.obj [("a", Json.num 7)]⟩
      ⟨"simple-helper", ["a"], [], none, none⟩ Registry.new RenderContext.new
      "a" [] rfl⟩

/-- Claim C10.  No helper invocation can modify the Registry: the render
call, viewed as a state transition on the Registry, leaves both the
template mapping and the helper mapping exactly as they were (the shallow
embedding of `HelperDef::resolve` and `render` taking `&Registry`: no
rendering operation produces a Registry).  Registration is the separate
mutating operation: `register_helper` does change the helper mapping. -/
theorem registry_unchanged_by_render :
    (∀ (r : Registry) (name : String) (data : Json) (fuel : Nat),
      (Registry.renderTransition r name data fuel).fst.templates = r.templates ∧
      (Registry.renderTransition r name data fuel).fst.helpers = r.helpers) ∧
    (∀ (r : Registry) (name : String) (h : HelperImpl),
      lookupF (Registry.register_helper r name h).helpers name = some h) := by
  refine ⟨fun _ _ _ _ => ⟨rfl, rfl⟩, ?_⟩
  intro r name h
  simp [Registry.register_helper, lookupF]
